import Mathlib

/-!
# Keymap of the M0110 USB converter (`converter/m0110_usb/keymap.c`)

A shallow embedding of the three lookup functions of `keymap.c`
(`keymap_get_keycode`, `keymap_fn_layer`, `keymap_fn_keycode`), of the `KEYMAP`
macro that builds one layer, and of the three tables stored in program memory.

Conventions of the embedding.

* `uint8_t` values are natural numbers.
* The header `keycode.h` is not part of the sources at hand, so the numeric
  value of each `KC_xxx` constant is unknown.  The constants are the
  constructors of `Keycode` and their byte values enter every definition as a
  parameter `KC : Keycode → Nat`.
* A table in program memory is the list of its bytes in address order.
  `pgm_read_byte (&tbl[i])` reads the byte `i` positions after the start of the
  table; the source performs no bounds check, so for `i` past the end of the
  table the byte read is whatever program memory holds there.  That content is
  not fixed by `keymap.c`; it is the parameter `past : Nat → Nat`
  (`past k` is the byte `k` positions after the end of the table).
-/

namespace Keymap

/-- The keycode constants `KC_xxx` that `keymap.c` names, either directly
(`KC_NO`) or by token pasting `KC_##Kxy` on a `KEYMAP` argument. -/
inductive Keycode
  | KC_NO
  | KC_A | KC_B | KC_C | KC_D | KC_E | KC_F | KC_G | KC_H | KC_I | KC_J | KC_K | KC_L | KC_M
  | KC_N | KC_O | KC_P | KC_Q | KC_R | KC_S | KC_T | KC_U | KC_V | KC_W | KC_X | KC_Y | KC_Z
  | KC_1 | KC_2 | KC_3 | KC_4 | KC_5 | KC_6 | KC_7 | KC_8 | KC_9 | KC_0
  | KC_GRV | KC_MINS | KC_EQL | KC_BSPC | KC_TAB | KC_LBRC | KC_RBRC | KC_SCLN | KC_QUOT
  | KC_ENT | KC_COMM | KC_DOT | KC_SLSH | KC_BSLS | KC_SPC
  | KC_LCTL | KC_LSFT | KC_LALT | KC_LGUI | KC_FN0
  | KC_UP | KC_DOWN | KC_LEFT | KC_RGHT
  | KC_PSLS | KC_PAST | KC_PMNS | KC_PPLS | KC_PENT | KC_PDOT
  | KC_P0 | KC_P1 | KC_P2 | KC_P3 | KC_P4 | KC_P5 | KC_P6 | KC_P7 | KC_P8 | KC_P9
  | KC_ESC | KC_F1 | KC_F2 | KC_F3 | KC_F4 | KC_F5 | KC_F6 | KC_F7 | KC_F8 | KC_F9
  | KC_F10 | KC_F11 | KC_F12 | KC_DEL | KC_NLCK | KC_CAPS | KC_HOME | KC_END
  | KC_PGUP | KC_PGDN | KC_PSCR | KC_SLCK | KC_PAUS | KC_INS
  deriving DecidableEq, Repr

open Keycode

/-- Modelled from the spec: `MATRIX_ROWS` comes from `config.h`, which is not
among the sources; the spec's ROWS constant.  The body of `KEYMAP` writes 14
rows, and the array type `keymaps[][MATRIX_ROWS][MATRIX_COLS]` must hold them. -/
abbrev MATRIX_ROWS : Nat := 14

/-- Modelled from the spec: `MATRIX_COLS` comes from `config.h`, which is not
among the sources; the spec's COLS constant.  Every row in the body of `KEYMAP`
has 8 cells. -/
abbrev MATRIX_COLS : Nat := 8

/-- The parameter list of the `KEYMAP` macro, in declaration order: the
parameter named `Kxy` is listed as the number `0xxy`. -/
def KEYMAP_params : List Nat :=
  [0x32,0x12,0x13,0x14,0x15,0x17,0x16,0x1A,0x1C,0x19,0x1D,0x1B,0x18,0x33,  0x47,0x68,0x6D,0x62,
   0x30,0x0C,0x0D,0x0E,0x0F,0x11,0x10,0x20,0x22,0x1F,0x23,0x21,0x1E,       0x59,0x5B,0x5C,0x4E,
   0x39,0x00,0x01,0x02,0x03,0x05,0x04,0x26,0x28,0x25,0x29,0x27,     0x24,  0x56,0x57,0x58,0x66,
   0x38,0x06,0x07,0x08,0x09,0x0B,0x2D,0x2E,0x2B,0x2F,0x2C,          0x4D,  0x53,0x54,0x55,0x4C,
   0x3A,0x37,               0x31,               0x34,0x2A,0x46,0x42,0x48,  0x52,     0x41]

/-- The `KEYMAP` macro: it takes 78 positional arguments and expands to the
initializer of one layer, 14 rows of 8 bytes.  An argument `X` bound to the
parameter `Kxy` appears in the body as `KC_##Kxy`, the byte `KC X`.  An
invocation with another number of arguments is not an expansion of the macro;
it yields no row. -/
def KEYMAP (KC : Keycode → Nat) : List Keycode → List (List Nat)
  | K32 :: K12 :: K13 :: K14 :: K15 :: K17 :: K16 :: K1A :: K1C :: K19 :: K1D :: K1B :: K18 :: K33 ::  K47 :: K68 :: K6D :: K62 ::
     K30 :: K0C :: K0D :: K0E :: K0F :: K11 :: K10 :: K20 :: K22 :: K1F :: K23 :: K21 :: K1E ::      K59 :: K5B :: K5C :: K4E ::
     K39 :: K00 :: K01 :: K02 :: K03 :: K05 :: K04 :: K26 :: K28 :: K25 :: K29 :: K27 ::    K24 ::  K56 :: K57 :: K58 :: K66 ::
     K38 :: K06 :: K07 :: K08 :: K09 :: K0B :: K2D :: K2E :: K2B :: K2F :: K2C ::        K4D ::  K53 :: K54 :: K55 :: K4C ::
     K3A :: K37 ::            K31 ::            K34 :: K2A :: K46 :: K42 :: K48 ::  K52 ::    K41 :: [] =>
    [ [ KC K00,   KC K01,   KC K02,   KC K03,   KC K04,   KC K05,   KC K06,   KC K07   ],
      [ KC K08,   KC K09,   KC KC_NO, KC K0B,   KC K0C,   KC K0D,   KC K0E,   KC K0F   ],
      [ KC K10,   KC K11,   KC K12,   KC K13,   KC K14,   KC K15,   KC K16,   KC K17   ],
      [ KC K18,   KC K19,   KC K1A,   KC K1B,   KC K1C,   KC K1D,   KC K1E,   KC K1F   ],
      [ KC K20,   KC K21,   KC K22,   KC K23,   KC K24,   KC K25,   KC K26,   KC K27   ],
      [ KC K28,   KC K29,   KC K2A,   KC K2B,   KC K2C,   KC K2D,   KC K2E,   KC K2F   ],
      [ KC K30,   KC K31,   KC K32,   KC K33,   KC K34,   KC KC_NO, KC KC_NO, KC K37   ],
      [ KC K38,   KC K39,   KC K3A,   KC KC_NO, KC KC_NO, KC KC_NO, KC KC_NO, KC KC_NO ],
      [ KC KC_NO, KC K41,   KC K42,   KC KC_NO, KC KC_NO, KC KC_NO, KC K46,   KC K47   ],
      [ KC K48,   KC KC_NO, KC KC_NO, KC KC_NO, KC K4C,   KC K4D,   KC K4E,   KC KC_NO ],
      [ KC KC_NO, KC KC_NO, KC K52,   KC K53,   KC K54,   KC K55,   KC K56,   KC K57   ],
      [ KC K58,   KC K59,   KC KC_NO, KC K5B,   KC K5C,   KC KC_NO, KC KC_NO, KC KC_NO ],
      [ KC KC_NO, KC KC_NO, KC K62,   KC KC_NO, KC KC_NO, KC KC_NO, KC K66,   KC KC_NO ],
      [ KC K68,   KC KC_NO, KC KC_NO, KC KC_NO, KC KC_NO, KC K6D,   KC KC_NO, KC KC_NO ] ]
  | _ => []

/-- Reading one byte of a table in program memory, `pgm_read_byte(&tbl[off])`.
Inside the table it is the table's byte; there is no bounds check, and past the
end of the table it is the byte program memory holds at that place. -/
def pgm_read_byte (tbl : List Nat) (past : Nat → Nat) (off : Nat) : Nat :=
  match tbl[off]? with
  | some b => b
  | none => past (off - tbl.length)

/-- The macro `KEYCODE(layer, row, col)`, `pgm_read_byte(&keymaps[layer][row][col])`,
over a table `keymaps` of type `uint8_t [][MATRIX_ROWS][MATRIX_COLS]`.  The table
lies in memory layer after layer and row after row, so the address of the cell
is `(layer * MATRIX_ROWS + row) * MATRIX_COLS + col` bytes after its start. -/
def KEYCODE (keymaps : List (List (List Nat))) (past : Nat → Nat) (layer row col : Nat) : Nat :=
  pgm_read_byte keymaps.flatten.flatten past ((layer * MATRIX_ROWS + row) * MATRIX_COLS + col)

/-- The table `fn_layer`: the layer each Fn key (0-7) switches to. -/
def fn_layer : List Nat :=
  [ 1,              -- Fn0
    0,              -- Fn1
    0,              -- Fn2
    0,              -- Fn3
    0,              -- Fn4
    0,              -- Fn5
    0,              -- Fn6
    0 ]             -- Fn7

/-- The table `fn_keycode`: the keycode sent when an Fn key (0-7) is released
without use of its layer. -/
def fn_keycode (KC : Keycode → Nat) : List Nat :=
  [ KC KC_NO,       -- Fn0
    KC KC_NO,       -- Fn1
    KC KC_NO,       -- Fn2
    KC KC_NO,       -- Fn3
    KC KC_NO,       -- Fn4
    KC KC_NO,       -- Fn5
    KC KC_NO,       -- Fn6
    KC KC_NO ]      -- Fn7

/-- The arguments of the first `KEYMAP` invocation of `keymaps` (the default layer). -/
def default_layer : List Keycode :=
  [KC_GRV, KC_1,   KC_2,   KC_3,   KC_4,   KC_5,   KC_6,   KC_7,   KC_8,   KC_9,   KC_0,   KC_MINS,KC_EQL, KC_BSPC,    KC_LCTL,KC_EQL, KC_PSLS,KC_PAST,
   KC_TAB, KC_Q,   KC_W,   KC_E,   KC_R,   KC_T,   KC_Y,   KC_U,   KC_I,   KC_O,   KC_P,   KC_LBRC,KC_RBRC,            KC_P7,  KC_P8,  KC_P9,  KC_PMNS,
   KC_FN0, KC_A,   KC_S,   KC_D,   KC_F,   KC_G,   KC_H,   KC_J,   KC_K,   KC_L,   KC_SCLN,KC_QUOT,        KC_ENT,     KC_P4,  KC_P5,  KC_P6,  KC_PPLS,
   KC_LSFT,KC_Z,   KC_X,   KC_C,   KC_V,   KC_B,   KC_N,   KC_M,   KC_COMM,KC_DOT, KC_SLSH,                KC_UP,      KC_P1,  KC_P2,  KC_P3,  KC_PENT,
   KC_LALT,KC_LGUI,                KC_SPC,                         KC_LCTL,KC_BSLS,KC_LEFT,KC_RGHT,KC_DOWN,            KC_P0,          KC_PDOT]

/-- The arguments of the second `KEYMAP` invocation of `keymaps` (the cursor layer). -/
def cursor_layer : List Keycode :=
  [KC_ESC, KC_F1,  KC_F2,  KC_F3,  KC_F4,  KC_F5,  KC_F6,  KC_F7,  KC_F8,  KC_F9,  KC_F10, KC_F11, KC_F12, KC_DEL,     KC_NLCK,KC_EQL, KC_PSLS,KC_PAST,
   KC_CAPS,KC_HOME,KC_UP,  KC_PGUP,KC_NO,  KC_NO,  KC_NO,  KC_PGUP,KC_UP,  KC_HOME,KC_PSCR,KC_SLCK,KC_PAUS,            KC_P7,  KC_P8,  KC_P9,  KC_PMNS,
   KC_FN0, KC_LEFT,KC_DOWN,KC_RGHT,KC_NO,  KC_NO,  KC_NO,  KC_LEFT,KC_DOWN,KC_RGHT,KC_NO,  KC_NO,          KC_ENT,     KC_P4,  KC_P5,  KC_P6,  KC_PPLS,
   KC_LSFT,KC_END, KC_NO,  KC_PGDN,KC_NO,  KC_NO,  KC_NO,  KC_PGDN,KC_NO,  KC_END, KC_NO,                  KC_PGUP,    KC_P1,  KC_P2,  KC_P3,  KC_PENT,
   KC_LALT,KC_LGUI,                KC_SPC,                         KC_LCTL,KC_INS, KC_HOME,KC_END, KC_PGDN,            KC_P0,          KC_PDOT]

/-- The arguments of the `KEYMAP` invocation that makes layer `layer` of `keymaps`. -/
def KEYMAP_args : Nat → List Keycode
  | 0 => default_layer
  | 1 => cursor_layer
  | _ => []

/-- The table `keymaps`: two layers, each the expansion of one `KEYMAP` invocation. -/
def keymaps (KC : Keycode → Nat) : List (List (List Nat)) :=
  [ KEYMAP KC default_layer,
    KEYMAP KC cursor_layer ]

/-- The function `keymap_get_keycode`: `return KEYCODE(layer, row, col);`. -/
def keymap_get_keycode (KC : Keycode → Nat) (past : Nat → Nat) (layer row col : Nat) : Nat :=
  KEYCODE (keymaps KC) past layer row col

/-- The function `keymap_fn_layer`: `return pgm_read_byte(&fn_layer[index]);`. -/
def keymap_fn_layer (past : Nat → Nat) (index : Nat) : Nat :=
  pgm_read_byte fn_layer past index

/-- The function `keymap_fn_keycode`: `return pgm_read_byte(&fn_keycode[index]);`. -/
def keymap_fn_keycode (KC : Keycode → Nat) (past : Nat → Nat) (index : Nat) : Nat :=
  pgm_read_byte (fn_keycode KC) past index

/-- A concrete numbering of the keycode constants, one distinct value per
constant in the order of `Keycode` (so `KC_NO` is 0); it stands in for
`keycode.h` wherever the definitions are evaluated on concrete input. -/
def KC_sample (k : Keycode) : Nat := k.toCtorIdx

/-- The cell `t[layer][row][col]` of a three-dimensional table, where it exists. -/
def cell {α : Type} (t : List (List (List α))) (layer row col : Nat) : Option α :=
  (t[layer]?).bind fun g => (g[row]?).bind fun r => r[col]?

/-- The two `KEYMAP` invocations of `keymaps` after macro expansion, as the
names of the constants in each cell (without the `KC_##` numbering). -/
def keymaps_expanded : List (List (List Keycode)) := [
  [
    [ KC_A    , KC_S    , KC_D    , KC_F    , KC_H    , KC_G    , KC_Z    , KC_X ],
    [ KC_C    , KC_V    , KC_NO   , KC_B    , KC_Q    , KC_W    , KC_E    , KC_R ],
    [ KC_Y    , KC_T    , KC_1    , KC_2    , KC_3    , KC_4    , KC_6    , KC_5 ],
    [ KC_EQL  , KC_9    , KC_7    , KC_MINS , KC_8    , KC_0    , KC_RBRC , KC_O ],
    [ KC_U    , KC_LBRC , KC_I    , KC_P    , KC_ENT  , KC_L    , KC_J    , KC_QUOT ],
    [ KC_K    , KC_SCLN , KC_BSLS , KC_COMM , KC_SLSH , KC_N    , KC_M    , KC_DOT ],
    [ KC_TAB  , KC_SPC  , KC_GRV  , KC_BSPC , KC_LCTL , KC_NO   , KC_NO   , KC_LGUI ],
    [ KC_LSFT , KC_FN0  , KC_LALT , KC_NO   , KC_NO   , KC_NO   , KC_NO   , KC_NO ],
    [ KC_NO   , KC_PDOT , KC_RGHT , KC_NO   , KC_NO   , KC_NO   , KC_LEFT , KC_LCTL ],
    [ KC_DOWN , KC_NO   , KC_NO   , KC_NO   , KC_PENT , KC_UP   , KC_PMNS , KC_NO ],
    [ KC_NO   , KC_NO   , KC_P0   , KC_P1   , KC_P2   , KC_P3   , KC_P4   , KC_P5 ],
    [ KC_P6   , KC_P7   , KC_NO   , KC_P8   , KC_P9   , KC_NO   , KC_NO   , KC_NO ],
    [ KC_NO   , KC_NO   , KC_PAST , KC_NO   , KC_NO   , KC_NO   , KC_PPLS , KC_NO ],
    [ KC_EQL  , KC_NO   , KC_NO   , KC_NO   , KC_NO   , KC_PSLS , KC_NO   , KC_NO ] ],
  [
    [ KC_LEFT , KC_DOWN , KC_RGHT , KC_NO   , KC_NO   , KC_NO   , KC_END  , KC_NO ],
    [ KC_PGDN , KC_NO   , KC_NO   , KC_NO   , KC_HOME , KC_UP   , KC_PGUP , KC_NO ],
    [ KC_NO   , KC_NO   , KC_F1   , KC_F2   , KC_F3   , KC_F4   , KC_F6   , KC_F5 ],
    [ KC_F12  , KC_F9   , KC_F7   , KC_F11  , KC_F8   , KC_F10  , KC_PAUS , KC_HOME ],
    [ KC_PGUP , KC_SLCK , KC_UP   , KC_PSCR , KC_ENT  , KC_RGHT , KC_LEFT , KC_NO ],
    [ KC_DOWN , KC_NO   , KC_INS  , KC_NO   , KC_NO   , KC_NO   , KC_PGDN , KC_END ],
    [ KC_CAPS , KC_SPC  , KC_ESC  , KC_DEL  , KC_LCTL , KC_NO   , KC_NO   , KC_LGUI ],
    [ KC_LSFT , KC_FN0  , KC_LALT , KC_NO   , KC_NO   , KC_NO   , KC_NO   , KC_NO ],
    [ KC_NO   , KC_PDOT , KC_END  , KC_NO   , KC_NO   , KC_NO   , KC_HOME , KC_NLCK ],
    [ KC_PGDN , KC_NO   , KC_NO   , KC_NO   , KC_PENT , KC_PGUP , KC_PMNS , KC_NO ],
    [ KC_NO   , KC_NO   , KC_P0   , KC_P1   , KC_P2   , KC_P3   , KC_P4   , KC_P5 ],
    [ KC_P6   , KC_P7   , KC_NO   , KC_P8   , KC_P9   , KC_NO   , KC_NO   , KC_NO ],
    [ KC_NO   , KC_NO   , KC_PAST , KC_NO   , KC_NO   , KC_NO   , KC_PPLS , KC_NO ],
    [ KC_EQL  , KC_NO   , KC_NO   , KC_NO   , KC_NO   , KC_PSLS , KC_NO   , KC_NO ] ] ]

/-- Modelled from the spec: the Fn slot a keycode constant refers to ("a keycode
may itself be a reference to an Fn slot").  The Fn range belongs to `keycode.h`,
which is not among the sources; of the constants `keymap.c` names, `KC_FN0`
alone is an Fn key, that of slot 0. -/
def fn_slot : Keycode → Option Nat
  | KC_FN0 => some 0
  | _ => none

/-! ## Reading a cell of a table laid out row after row -/

/-- In a list of rows that all have `n` entries, the entry `j` of row `i` is
the entry `i * n + j` of the concatenation of the rows. -/
theorem getElem?_flatten_rows {α : Type} (n : Nat) :
    ∀ (l : List (List α)), (∀ r ∈ l, r.length = n) → ∀ (i j : Nat), j < n →
      l.flatten[i * n + j]? = (l[i]?).bind (fun r => r[j]?)
  | [], _, i, j, _ => by simp
  | r :: l, h, 0, j, hj => by
      have hr : r.length = n := h r (by simp)
      simp [List.getElem?_append_left, hr, hj]
  | r :: l, h, i + 1, j, hj => by
      have hr : r.length = n := h r (by simp)
      have ih := getElem?_flatten_rows n l (fun r hr => h r (by simp [hr])) i j hj
      have hlen : r.length ≤ (i + 1) * n + j := by rw [hr]; nlinarith
      have hsub : (i + 1) * n + j - r.length = i * n + j := by
        rw [hr, Nat.add_mul]; omega
      rw [List.flatten_cons, List.getElem?_append_right hlen, hsub, ih]
      simp

/-- A read inside the table returns the table's byte, whatever lies past it. -/
theorem pgm_read_byte_of_getElem? (tbl : List Nat) (past : Nat → Nat) (off b : Nat)
    (h : tbl[off]? = some b) : pgm_read_byte tbl past off = b := by
  simp [pgm_read_byte, h]

/-- A read past the end of the table returns the byte program memory holds there. -/
theorem pgm_read_byte_past (tbl : List Nat) (past : Nat → Nat) (off : Nat)
    (h : tbl.length ≤ off) : pgm_read_byte tbl past off = past (off - tbl.length) := by
  have : tbl[off]? = none := List.getElem?_eq_none h
  simp [pgm_read_byte, this]

/-- In a table whose layers all have `MATRIX_ROWS` rows of `MATRIX_COLS` bytes,
`KEYCODE` at an existing cell returns the byte of that cell. -/
theorem KEYCODE_cell (t : List (List (List Nat))) (past : Nat → Nat) (layer row col : Nat)
    (g : List (List Nat)) (r : List Nat) (b : Nat)
    (hshape : ∀ g ∈ t, g.length = MATRIX_ROWS ∧ ∀ r ∈ g, r.length = MATRIX_COLS)
    (hrow : row < MATRIX_ROWS) (hcol : col < MATRIX_COLS)
    (hg : t[layer]? = some g) (hr : g[row]? = some r) (hb : r[col]? = some b) :
    KEYCODE t past layer row col = b := by
  have hrows : ∀ r ∈ t.flatten, r.length = MATRIX_COLS := by
    intro r hr
    obtain ⟨g, hgt, hrg⟩ := List.mem_flatten.mp hr
    exact (hshape g hgt).2 r hrg
  have h1 : t.flatten[layer * MATRIX_ROWS + row]? = some r := by
    rw [getElem?_flatten_rows MATRIX_ROWS t (fun g hg => (hshape g hg).1) layer row hrow, hg]
    simpa using hr
  have h2 : t.flatten.flatten[(layer * MATRIX_ROWS + row) * MATRIX_COLS + col]? = some b := by
    rw [getElem?_flatten_rows MATRIX_COLS t.flatten hrows _ col hcol, h1]
    simpa using hb
  exact pgm_read_byte_of_getElem? _ _ _ _ h2

/-- A list of 78 arguments, written entry by entry. -/
theorem args_eq_map_range (args : List Keycode) (h : args.length = 78) :
    args = (List.range 78).map (fun i => args.getD i KC_NO) := by
  apply List.ext_getElem
  · simp [h]
  · intro i h1 h2
    simp [List.getD_eq_getElem?_getD, h1]

/-- Every expansion of `KEYMAP` (78 arguments) is a grid of 14 rows of 8 bytes. -/
theorem KEYMAP_shape (KC : Keycode → Nat) (args : List Keycode) (h : args.length = 78) :
    (KEYMAP KC args).length = MATRIX_ROWS ∧ ∀ r ∈ KEYMAP KC args, r.length = MATRIX_COLS := by
  rw [args_eq_map_range args h]
  generalize (fun i => args.getD i KC_NO) = f
  have hlen : (KEYMAP KC ((List.range 78).map f)).map List.length = List.replicate 14 8 := rfl
  constructor
  · simpa using congrArg List.length hlen
  · intro r hr
    have : r.length ∈ (KEYMAP KC ((List.range 78).map f)).map List.length :=
      List.mem_map_of_mem _ hr
    rw [hlen] at this
    exact (List.mem_replicate.mp this).2

/-- All layers of `keymaps` are grids of 14 rows of 8 bytes. -/
theorem keymaps_shape (KC : Keycode → Nat) :
    ∀ g ∈ keymaps KC, g.length = MATRIX_ROWS ∧ ∀ r ∈ g, r.length = MATRIX_COLS := by
  intro g hg
  simp only [keymaps, List.mem_cons, List.mem_singleton, List.not_mem_nil, or_false] at hg
  rcases hg with rfl | rfl
  · exact KEYMAP_shape KC _ rfl
  · exact KEYMAP_shape KC _ rfl

/-- Inside the grid, `keymap_get_keycode` returns the cell `keymaps[layer][row][col]`. -/
theorem keymap_get_keycode_cell (KC : Keycode → Nat) (past : Nat → Nat) (layer row col b : Nat)
    (hrow : row < MATRIX_ROWS) (hcol : col < MATRIX_COLS)
    (hb : cell (keymaps KC) layer row col = some b) :
    keymap_get_keycode KC past layer row col = b := by
  unfold cell at hb
  cases hg : (keymaps KC)[layer]? with
  | none => simp [hg] at hb
  | some g =>
    rw [hg] at hb
    cases hr : g[row]? with
    | none => simp [hr] at hb
    | some r =>
      simp only [hr, Option.some_bind] at hb
      exact KEYCODE_cell _ past layer row col g r b (keymaps_shape KC) hrow hcol hg hr hb

/-- Indexing commutes with renumbering the cells of a table. -/
theorem cell_map {α β : Type} (f : α → β) (t : List (List (List α))) (layer row col : Nat) :
    cell (t.map (List.map (List.map f))) layer row col = (cell t layer row col).map f := by
  unfold cell
  cases h1 : t[layer]? with
  | none => simp [h1]
  | some g =>
    cases h2 : g[row]? with
    | none => simp [h1, h2]
    | some r => simp [h1, h2]

/-- The table `keymaps` is the expanded table, each name numbered by `KC`. -/
theorem keymaps_eq_expanded (KC : Keycode → Nat) :
    keymaps KC = keymaps_expanded.map (List.map (List.map KC)) := rfl

/-- Inside the grid, `keymap_get_keycode` returns the byte of the constant that
the expanded table holds in the cell. -/
theorem keymap_get_keycode_expanded (KC : Keycode → Nat) (past : Nat → Nat)
    (layer row col : Nat) (k : Keycode)
    (hrow : row < MATRIX_ROWS) (hcol : col < MATRIX_COLS)
    (hk : cell keymaps_expanded layer row col = some k) :
    keymap_get_keycode KC past layer row col = KC k := by
  apply keymap_get_keycode_cell KC past layer row col (KC k) hrow hcol
  rw [keymaps_eq_expanded, cell_map, hk]
  rfl

/-- Every in-range cell of the expanded table exists. -/
theorem cell_expanded_isSome (layer row col : Nat)
    (hl : layer < 2) (hrow : row < MATRIX_ROWS) (hcol : col < MATRIX_COLS) :
    ∃ k, cell keymaps_expanded layer row col = some k := by
  have key : ∀ layer < 2, ∀ row < MATRIX_ROWS, ∀ col < MATRIX_COLS,
      (cell keymaps_expanded layer row col).isSome = true := by decide
  exact Option.isSome_iff_exists.mp (key layer hl row hrow col hcol)

/-- Inside the grid, the cell `keymaps[layer][row][col]` exists and is what
`keymap_get_keycode` returns, whatever program memory holds past the table. -/
theorem cell_keymaps (KC : Keycode → Nat) (past : Nat → Nat) (layer row col : Nat)
    (hl : layer < 2) (hrow : row < MATRIX_ROWS) (hcol : col < MATRIX_COLS) :
    cell (keymaps KC) layer row col = some (keymap_get_keycode KC past layer row col) := by
  obtain ⟨k, hk⟩ := cell_expanded_isSome layer row col hl hrow hcol
  rw [keymap_get_keycode_expanded KC past layer row col k hrow hcol hk,
    keymaps_eq_expanded, cell_map, hk]
  rfl

/-- The lookup depends on `(layer, row, col)` only through the offset
`(layer * MATRIX_ROWS + row) * MATRIX_COLS + col`: two triples with the same
offset read the same byte. -/
theorem keymap_get_keycode_same_offset (KC : Keycode → Nat) (past : Nat → Nat)
    (layer row col layer' row' col' : Nat)
    (h : (layer * MATRIX_ROWS + row) * MATRIX_COLS + col
       = (layer' * MATRIX_ROWS + row') * MATRIX_COLS + col') :
    keymap_get_keycode KC past layer row col = keymap_get_keycode KC past layer' row' col' := by
  unfold keymap_get_keycode KEYCODE
  rw [h]

/-- A lookup whose offset lies past the 224 bytes of `keymaps` returns the byte
program memory holds there. -/
theorem keymap_get_keycode_past (KC : Keycode → Nat) (past : Nat → Nat) (layer row col : Nat)
    (h : 224 ≤ (layer * MATRIX_ROWS + row) * MATRIX_COLS + col) :
    keymap_get_keycode KC past layer row col
      = past ((layer * MATRIX_ROWS + row) * MATRIX_COLS + col - 224) := by
  have hlen : (keymaps KC).flatten.flatten.length = 224 := rfl
  unfold keymap_get_keycode KEYCODE
  rw [pgm_read_byte_past _ _ _ (by rw [hlen]; exact h), hlen]

/-- In any table whose layer 0 has rows of `MATRIX_COLS` bytes, `KEYCODE` at a
cell of layer 0 returns the byte of that cell. -/
theorem KEYCODE_layer0 (t : List (List (List Nat))) (past : Nat → Nat)
    (g : List (List Nat)) (row col : Nat) (r : List Nat) (b : Nat)
    (ht : t[0]? = some g) (hg : ∀ r ∈ g, r.length = MATRIX_COLS) (hcol : col < MATRIX_COLS)
    (hr : g[row]? = some r) (hb : r[col]? = some b) :
    KEYCODE t past 0 row col = b := by
  obtain _ | ⟨g', tl⟩ := t
  · simp at ht
  · have hg' : g' = g := by simpa using ht
    subst hg'
    have h1 : g'.flatten[row * MATRIX_COLS + col]? = some b := by
      rw [getElem?_flatten_rows MATRIX_COLS g' hg row col hcol, hr]
      simpa using hb
    have hlt : row * MATRIX_COLS + col < g'.flatten.length :=
      (List.getElem?_eq_some_iff.mp h1).1
    unfold KEYCODE
    apply pgm_read_byte_of_getElem?
    rw [List.flatten_cons, List.flatten_append, Nat.zero_mul, Nat.zero_add,
      List.getElem?_append_left hlt, h1]

/-- The layer of an Fn slot: 1 for slot 0, 0 for the slots 1 to 7. -/
theorem keymap_fn_layer_eq (past : Nat → Nat) (i : Nat) (hi : i < 8) :
    keymap_fn_layer past i = (if i = 0 then 1 else 0) := by
  interval_cases i <;> rfl

/-- Only `KC_FN0` refers to an Fn slot, and the slot is 0. -/
theorem fn_slot_eq_some (k : Keycode) (i : Nat) :
    fn_slot k = some i ↔ k = KC_FN0 ∧ i = 0 := by
  cases k <;> simp [fn_slot, eq_comm]

set_option maxRecDepth 100000 in
/-- On both layers the cell (7, 1) holds `KC_FN0` and no other cell holds an Fn key. -/
theorem fn_slot_cell (layer row col : Nat)
    (hl : layer < 2) (hrow : row < MATRIX_ROWS) (hcol : col < MATRIX_COLS) :
    (cell keymaps_expanded layer row col).bind fn_slot
      = (if row = 7 ∧ col = 1 then some 0 else none) := by
  have key : ∀ layer < 2, ∀ row < MATRIX_ROWS, ∀ col < MATRIX_COLS,
      decide ((cell keymaps_expanded layer row col).bind fn_slot
        = (if row = 7 ∧ col = 1 then some 0 else none)) = true := by decide
  exact of_decide_eq_true (key layer hl row hrow col hcol)

set_option maxRecDepth 100000 in
/-- On layer 0 the expanded table holds `KC_NO` exactly in the cells that no
`KEYMAP` parameter is wired to. -/
theorem default_layer_NO_iff (row col : Nat) (hrow : row < MATRIX_ROWS) (hcol : col < MATRIX_COLS) :
    cell keymaps_expanded 0 row col = some KC_NO ↔ row * 8 + col ∉ KEYMAP_params := by
  have key : ∀ row < MATRIX_ROWS, ∀ col < MATRIX_COLS,
      decide (cell keymaps_expanded 0 row col = some KC_NO)
        = decide (row * 8 + col ∉ KEYMAP_params) := by decide
  have h := key row hrow col hcol
  constructor
  · intro hc
    exact of_decide_eq_true (h ▸ decide_eq_true hc)
  · intro hu
    exact of_decide_eq_true (h.symm ▸ decide_eq_true hu)

/-- The sample numbering gives `KC_NO` a value no other constant has. -/
theorem KC_sample_NO (k : Keycode) (h : KC_sample k = KC_sample KC_NO) : k = KC_NO := by
  cases k <;> first | rfl | exact absurd h (by decide)

/-! ## The claims -/

set_option maxRecDepth 100000 in
/-- C1: for each layer in {0, 1} and each of the 78 `KEYMAP` parameters `Kxy`
(the `i`-th parameter, named by the number `xy = KEYMAP_params[i]`),
`keymap_get_keycode (layer, xy / 8, xy % 8)` returns exactly the keycode passed
for that parameter, the `i`-th argument of the layer's `KEYMAP` invocation. -/
theorem keymap_get_keycode_param (KC : Keycode → Nat) (past : Nat → Nat) (layer i : Nat)
    (hl : layer < 2) (hi : i < 78) :
    KEYMAP_params[i]? = some (KEYMAP_params.getD i 0) ∧
    (KEYMAP_args layer)[i]? = some ((KEYMAP_args layer).getD i KC_NO) ∧
    keymap_get_keycode KC past layer (KEYMAP_params.getD i 0 / 8) (KEYMAP_params.getD i 0 % 8)
      = KC ((KEYMAP_args layer).getD i KC_NO) := by
  have key : ∀ layer < 2, ∀ i < 78,
      KEYMAP_params[i]? = some (KEYMAP_params.getD i 0) ∧
      (KEYMAP_args layer)[i]? = some ((KEYMAP_args layer).getD i KC_NO) ∧
      KEYMAP_params.getD i 0 / 8 < MATRIX_ROWS ∧ KEYMAP_params.getD i 0 % 8 < MATRIX_COLS ∧
      cell keymaps_expanded layer (KEYMAP_params.getD i 0 / 8) (KEYMAP_params.getD i 0 % 8)
        = some ((KEYMAP_args layer).getD i KC_NO) := by decide
  obtain ⟨h1, h2, h3, h4, h5⟩ := key layer hl i hi
  exact ⟨h1, h2, keymap_get_keycode_expanded KC past layer _ _ _ h3 h4 h5⟩

/-- C1, evaluated: `K00` is parameter number 36 and carries `A` on layer 0, so
`keymap_get_keycode (0, 0, 0)` is `KC_A`. -/
theorem keymap_get_keycode_param_witness :
    (0 < 2 ∧ 36 < 78) ∧ KEYMAP_params[36]? = some 0x00 ∧ (KEYMAP_args 0)[36]? = some KC_A ∧
    keymap_get_keycode KC_sample (fun _ => 0) 0 0 0 = KC_sample KC_A :=
  ⟨by decide, keymap_get_keycode_param KC_sample (fun _ => 0) 0 36 (by decide) (by decide)⟩

set_option maxRecDepth 100000 in
/-- C2: 34 of the 112 cells of the grid have no `KEYMAP` parameter wired to them
(no parameter is named by the number `row * 8 + col`), and for each layer in
{0, 1} and each such cell `keymap_get_keycode` returns `KC_NO`. -/
theorem keymap_get_keycode_unwired (KC : Keycode → Nat) (past : Nat → Nat)
    (layer row col : Nat) (hl : layer < 2) (hrow : row < 14) (hcol : col < 8)
    (hu : row * 8 + col ∉ KEYMAP_params) :
    ((List.range (14 * 8)).filter (fun n => decide (n ∉ KEYMAP_params))).length = 34 ∧
    keymap_get_keycode KC past layer row col = KC KC_NO := by
  have key : ∀ layer < 2, ∀ row < 14, ∀ col < 8, (decide (row * 8 + col ∈ KEYMAP_params) ||
      decide (cell keymaps_expanded layer row col = some KC_NO)) = true := by decide
  have hk := key layer hl row hrow col hcol
  simp only [Bool.or_eq_true, decide_eq_true_eq] at hk
  exact ⟨by decide, keymap_get_keycode_expanded KC past layer row col KC_NO hrow hcol
    (hk.resolve_left hu)⟩

/-- C2, evaluated at the unwired cell (1, 2) of layer 0 and (13, 7) of layer 1. -/
theorem keymap_get_keycode_unwired_witness :
    (1 * 8 + 2 ∉ KEYMAP_params ∧ keymap_get_keycode KC_sample (fun _ => 0) 0 1 2 = KC_sample KC_NO) ∧
    (13 * 8 + 7 ∉ KEYMAP_params ∧ keymap_get_keycode KC_sample (fun _ => 7) 1 13 7 = KC_sample KC_NO) :=
  ⟨⟨by decide, (keymap_get_keycode_unwired KC_sample (fun _ => 0) 0 1 2
      (by decide) (by decide) (by decide) (by decide)).2⟩,
   ⟨by decide, (keymap_get_keycode_unwired KC_sample (fun _ => 7) 1 13 7
      (by decide) (by decide) (by decide) (by decide)).2⟩⟩

/-- C3: for every Fn slot `i < 8`, `keymap_fn_layer i` and `keymap_fn_keycode i`
are the `i`-th entries of the tables `fn_layer` and `fn_keycode`: the layer is 1
for slot 0 and 0 for slots 1 to 7, and the keycode is `KC_NO` for all eight. -/
theorem keymap_fn_slot (KC : Keycode → Nat) (past past' : Nat → Nat) (i : Nat) (hi : i < 8) :
    fn_layer[i]? = some (keymap_fn_layer past i) ∧
    (fn_keycode KC)[i]? = some (keymap_fn_keycode KC past' i) ∧
    keymap_fn_layer past i = (if i = 0 then 1 else 0) ∧
    keymap_fn_keycode KC past' i = KC KC_NO := by
  interval_cases i <;> exact ⟨rfl, rfl, rfl, rfl⟩

/-- C3, evaluated at slots 0 and 5. -/
theorem keymap_fn_slot_witness :
    (keymap_fn_layer (fun _ => 9) 0 = 1 ∧ keymap_fn_keycode KC_sample (fun _ => 9) 0 = KC_sample KC_NO) ∧
    (keymap_fn_layer (fun _ => 9) 5 = 0 ∧ keymap_fn_keycode KC_sample (fun _ => 9) 5 = KC_sample KC_NO) :=
  ⟨⟨(keymap_fn_slot KC_sample (fun _ => 9) (fun _ => 9) 0 (by decide)).2.2.1,
    (keymap_fn_slot KC_sample (fun _ => 9) (fun _ => 9) 0 (by decide)).2.2.2⟩,
   ⟨(keymap_fn_slot KC_sample (fun _ => 9) (fun _ => 9) 5 (by decide)).2.2.1,
    (keymap_fn_slot KC_sample (fun _ => 9) (fun _ => 9) 5 (by decide)).2.2.2⟩⟩

/-- C4 as stated fails: the cell (row 2, col 1) is wired to parameter `K11`,
which carries `T` on layer 0 and `NO` on layer 1, so the lookups there return
`KC_T` and `KC_NO` under every numbering of the constants, and under a numbering
that tells the constants apart they are not `KC_A` and `KC_LEFT`. -/
theorem keymap_get_keycode_2_1_counterexample :
    (∀ (KC : Keycode → Nat) (past : Nat → Nat),
      keymap_get_keycode KC past 0 2 1 = KC KC_T ∧ keymap_get_keycode KC past 1 2 1 = KC KC_NO) ∧
    keymap_get_keycode KC_sample (fun _ => 0) 0 2 1 ≠ KC_sample KC_A ∧
    keymap_get_keycode KC_sample (fun _ => 0) 1 2 1 ≠ KC_sample KC_LEFT := by
  have h : ∀ (KC : Keycode → Nat) (past : Nat → Nat),
      keymap_get_keycode KC past 0 2 1 = KC KC_T ∧ keymap_get_keycode KC past 1 2 1 = KC KC_NO :=
    fun KC past =>
      ⟨keymap_get_keycode_expanded KC past 0 2 1 KC_T (by decide) (by decide) rfl,
       keymap_get_keycode_expanded KC past 1 2 1 KC_NO (by decide) (by decide) rfl⟩
  refine ⟨h, ?_, ?_⟩
  · rw [(h KC_sample (fun _ => 0)).1]; decide
  · rw [(h KC_sample (fun _ => 0)).2]; decide

/-- C4, amended: the base "A" key sits at (row 0, col 0).  There layer 0 returns
`KC_A` and layer 1, the layer `keymap_fn_layer 0` selects while Fn0 is held,
returns `KC_LEFT`, which is not `KC_A` once `keycode.h` gives the two constants
different values. -/
theorem keymap_get_keycode_A_Left (KC : Keycode → Nat) (past past' : Nat → Nat)
    (hne : KC KC_LEFT ≠ KC KC_A) :
    keymap_get_keycode KC past 0 0 0 = KC KC_A ∧
    keymap_get_keycode KC past 1 0 0 = KC KC_LEFT ∧
    keymap_fn_layer past' 0 = 1 ∧
    keymap_get_keycode KC past (keymap_fn_layer past' 0) 0 0 = KC KC_LEFT ∧
    keymap_get_keycode KC past (keymap_fn_layer past' 0) 0 0 ≠ KC KC_A := by
  have h0 : keymap_get_keycode KC past 0 0 0 = KC KC_A :=
    keymap_get_keycode_expanded KC past 0 0 0 KC_A (by decide) (by decide) rfl
  have h1 : keymap_get_keycode KC past 1 0 0 = KC KC_LEFT :=
    keymap_get_keycode_expanded KC past 1 0 0 KC_LEFT (by decide) (by decide) rfl
  have hf : keymap_fn_layer past' 0 = 1 := rfl
  refine ⟨h0, h1, hf, ?_, ?_⟩
  · rw [hf]; exact h1
  · rw [hf, h1]; exact hne

/-- C4 amended, evaluated with the sample numbering. -/
theorem keymap_get_keycode_A_Left_witness :
    KC_sample KC_LEFT ≠ KC_sample KC_A ∧
    keymap_get_keycode KC_sample (fun _ => 0) 0 0 0 = KC_sample KC_A ∧
    keymap_get_keycode KC_sample (fun _ => 0) 1 0 0 = KC_sample KC_LEFT :=
  ⟨by decide,
   (keymap_get_keycode_A_Left KC_sample (fun _ => 0) (fun _ => 0) (by decide)).1,
   (keymap_get_keycode_A_Left KC_sample (fun _ => 0) (fun _ => 0) (by decide)).2.1⟩

/-- C5: `keymaps` has exactly 2 layers, each exactly 14 rows of exactly 8
bytes (224 bytes in all), so for `layer < 2`, `row < 14`, `col < 8` the offset
`keymap_get_keycode` reads at lies inside the table, and the byte returned is
the cell `keymaps[layer][row][col]`, whatever lies past the table. -/
theorem keymaps_complete_grid (KC : Keycode → Nat) (past : Nat → Nat) (layer row col : Nat)
    (hl : layer < 2) (hrow : row < 14) (hcol : col < 8) :
    (keymaps KC).length = 2 ∧
    (keymaps KC).map (fun g => g.map List.length) = List.replicate 2 (List.replicate 14 8) ∧
    (keymaps KC).flatten.flatten.length = 2 * 14 * 8 ∧
    (layer * MATRIX_ROWS + row) * MATRIX_COLS + col < (keymaps KC).flatten.flatten.length ∧
    cell (keymaps KC) layer row col = some (keymap_get_keycode KC past layer row col) := by
  have hlen : (keymaps KC).flatten.flatten.length = 2 * 14 * 8 := rfl
  refine ⟨rfl, rfl, hlen, ?_, cell_keymaps KC past layer row col hl hrow hcol⟩
  rw [hlen]
  simp only [MATRIX_ROWS, MATRIX_COLS]
  omega

/-- C5, evaluated at the last cell of the last layer. -/
theorem keymaps_complete_grid_witness :
    (1 < 2 ∧ 13 < 14 ∧ 7 < 8) ∧
    (1 * MATRIX_ROWS + 13) * MATRIX_COLS + 7 < (keymaps KC_sample).flatten.flatten.length ∧
    cell (keymaps KC_sample) 1 13 7 = some (keymap_get_keycode KC_sample (fun _ => 0) 1 13 7) :=
  ⟨by decide,
   (keymaps_complete_grid KC_sample (fun _ => 0) 1 13 7 (by decide) (by decide) (by decide)).2.2.2⟩

/-- C6 as stated fails: `keymap_get_keycode (0, 14, 0)` (row 14 is out of range)
returns the content of layer 1's cell (0, 0), here `KC_LEFT`; and out-of-range
lookups have no distinguished error value, since `keymap_get_keycode (2, 0, 0)`
returns whatever byte program memory holds after the table. -/
theorem keymap_get_keycode_0_14_0_counterexample :
    cell (keymaps KC_sample) 1 0 0 = some (keymap_get_keycode KC_sample (fun _ => 0) 0 14 0) ∧
    keymap_get_keycode KC_sample (fun _ => 0) 0 14 0 = KC_sample KC_LEFT ∧
    keymap_get_keycode KC_sample (fun _ => 0) 2 0 0 = 0 ∧
    keymap_get_keycode KC_sample (fun _ => 1) 2 0 0 = 1 := by
  have h : keymap_get_keycode KC_sample (fun _ => 0) 0 14 0
      = keymap_get_keycode KC_sample (fun _ => 0) 1 0 0 :=
    keymap_get_keycode_same_offset KC_sample _ 0 14 0 1 0 0 rfl
  have h1 : keymap_get_keycode KC_sample (fun _ => 0) 1 0 0 = KC_sample KC_LEFT :=
    keymap_get_keycode_expanded KC_sample _ 1 0 0 KC_LEFT (by decide) (by decide) rfl
  refine ⟨?_, ?_, ?_, ?_⟩
  · rw [h]; exact cell_keymaps KC_sample _ 1 0 0 (by decide) (by decide) (by decide)
  · rw [h, h1]
  · exact keymap_get_keycode_past KC_sample (fun _ => 0) 2 0 0 (by decide)
  · exact keymap_get_keycode_past KC_sample (fun _ => 1) 2 0 0 (by decide)

/-- C6, amended: `keymap_get_keycode` performs no bounds check.  For an
out-of-range `(layer, row, col)` it returns, as an ordinary byte, what lies at the
offset `off = (layer * 14 + row) * 8 + col` from the start of `keymaps`: when
`off < 224` that is the keycode of another cell, `(off / 112, off % 112 / 8, off % 8)`,
of the table, and when `224 ≤ off` it is the byte program memory holds `off - 224`
positions past the end of the table. -/
theorem keymap_get_keycode_out_of_range (KC : Keycode → Nat) (past : Nat → Nat)
    (layer row col off : Nat) (hoff : off = (layer * 14 + row) * 8 + col)
    (h : 2 ≤ layer ∨ 14 ≤ row ∨ 8 ≤ col) :
    (off < 224 →
      (off / 112 < 2 ∧ off % 112 / 8 < 14 ∧ off % 8 < 8) ∧
      (off / 112, off % 112 / 8, off % 8) ≠ (layer, row, col) ∧
      cell (keymaps KC) (off / 112) (off % 112 / 8) (off % 8)
        = some (keymap_get_keycode KC past layer row col)) ∧
    (224 ≤ off → keymap_get_keycode KC past layer row col = past (off - 224)) := by
  constructor
  · intro hlt
    have hb : off / 112 < 2 ∧ off % 112 / 8 < 14 ∧ off % 8 < 8 := by omega
    refine ⟨hb, ?_, ?_⟩
    · intro heq
      simp only [Prod.mk.injEq] at heq
      omega
    · rw [keymap_get_keycode_same_offset KC past layer row col
        (off / 112) (off % 112 / 8) (off % 8) (by simp only [MATRIX_ROWS, MATRIX_COLS]; omega)]
      exact cell_keymaps KC past _ _ _ hb.1 hb.2.1 hb.2.2
  · intro hge
    rw [hoff]
    exact keymap_get_keycode_past KC past layer row col (by
      simp only [MATRIX_ROWS, MATRIX_COLS]; omega)

/-- C6 amended, evaluated at (0, 14, 0), whose offset 112 is layer 1's cell
(0, 0), and at (2, 0, 0), whose offset 224 is the first byte past the table. -/
theorem keymap_get_keycode_out_of_range_witness :
    ((2 ≤ 0 ∨ 14 ≤ 14 ∨ 8 ≤ 0) ∧ 112 < 224 ∧
      cell (keymaps KC_sample) (112 / 112) (112 % 112 / 8) (112 % 8)
        = some (keymap_get_keycode KC_sample (fun _ => 0) 0 14 0)) ∧
    ((2 ≤ 2 ∨ 14 ≤ 0 ∨ 8 ≤ 0) ∧ 224 ≤ 224 ∧
      keymap_get_keycode KC_sample (fun n => n + 5) 2 0 0 = (fun n => n + 5) (224 - 224)) :=
  ⟨⟨by decide, by decide,
    ((keymap_get_keycode_out_of_range KC_sample (fun _ => 0) 0 14 0 112 (by decide)
      (by decide)).1 (by decide)).2.2⟩,
   ⟨by decide, by decide,
    (keymap_get_keycode_out_of_range KC_sample (fun n => n + 5) 2 0 0 224 (by decide)
      (by decide)).2 (by decide)⟩⟩

/-- C7 as stated fails: with the byte 1 stored right after `fn_layer` and the
byte of `KC_NO` right after `fn_keycode`, index 8 is answered with slot 0's data
by both functions; and the answer at index 8 is no fixed error value, it changes
with the byte stored there. -/
theorem keymap_fn_index_8_counterexample :
    keymap_fn_layer (fun _ => 1) 8 = 1 ∧
    keymap_fn_layer (fun _ => 1) 8 = keymap_fn_layer (fun _ => 1) 0 ∧
    keymap_fn_keycode KC_sample (fun _ => KC_sample KC_NO) 8 = KC_sample KC_NO ∧
    keymap_fn_keycode KC_sample (fun _ => KC_sample KC_NO) 8
      = keymap_fn_keycode KC_sample (fun _ => KC_sample KC_NO) 0 ∧
    keymap_fn_layer (fun _ => 0) 8 = 0 ∧
    keymap_fn_keycode KC_sample (fun _ => KC_sample KC_A) 8 = KC_sample KC_A :=
  ⟨rfl, rfl, rfl, rfl, rfl, rfl⟩

/-- C7, amended: `keymap_fn_layer` and `keymap_fn_keycode` perform no bounds
check.  For an index `8 ≤ i ≤ 255` each returns, as an ordinary byte, what
program memory holds `i - 8` positions past the end of its 8-entry table. -/
theorem keymap_fn_out_of_range (KC : Keycode → Nat) (past past' : Nat → Nat) (i : Nat)
    (h8 : 8 ≤ i) (_h255 : i ≤ 255) :
    keymap_fn_layer past i = past (i - 8) ∧
    keymap_fn_keycode KC past' i = past' (i - 8) :=
  ⟨pgm_read_byte_past fn_layer past i h8, pgm_read_byte_past (fn_keycode KC) past' i h8⟩

/-- C7 amended, evaluated at index 10. -/
theorem keymap_fn_out_of_range_witness :
    (8 ≤ 10 ∧ 10 ≤ 255) ∧
    keymap_fn_layer (fun n => n + 40) 10 = 42 ∧
    keymap_fn_keycode KC_sample (fun n => 2 * n) 10 = 4 :=
  ⟨by decide,
   keymap_fn_out_of_range KC_sample (fun n => n + 40) (fun n => 2 * n) 10 (by decide) (by decide)⟩

/-- C8: layer isolation.  For any two tables whose layer 0 is the same grid of
14 rows of 8 bytes, and every `row < 14`, `col < 8`, `KEYCODE (0, row, col)`
returns the same byte in both, the cell `(row, col)` of that grid; nothing of the
other layers, nor of what lies past either table, enters the result.  With
`keymaps` as one of the tables this is `keymap_get_keycode (0, row, col)`. -/
theorem KEYCODE_layer_isolation (t₁ t₂ : List (List (List Nat))) (past₁ past₂ : Nat → Nat)
    (g : List (List Nat)) (row col : Nat)
    (h₁ : t₁[0]? = some g) (h₂ : t₂[0]? = some g)
    (hlen : g.length = 14) (hrows : ∀ r ∈ g, r.length = 8)
    (hrow : row < 14) (hcol : col < 8) :
    KEYCODE t₁ past₁ 0 row col = KEYCODE t₂ past₂ 0 row col ∧
    cell [g] 0 row col = some (KEYCODE t₁ past₁ 0 row col) := by
  have hr : g[row]? = some g[row] := List.getElem?_eq_getElem (by omega)
  have hc8 : col < g[row].length := by
    rw [hrows g[row] (List.getElem_mem _)]; exact hcol
  have hb : g[row][col]? = some g[row][col] := List.getElem?_eq_getElem hc8
  have e₁ := KEYCODE_layer0 t₁ past₁ g row col _ _ h₁ hrows hcol hr hb
  have e₂ := KEYCODE_layer0 t₂ past₂ g row col _ _ h₂ hrows hcol hr hb
  refine ⟨e₁.trans e₂.symm, ?_⟩
  rw [e₁]
  simp [cell, hr, hb]

set_option maxRecDepth 100000 in
/-- C8, evaluated: `keymap_get_keycode (0, 4, 2)` on `keymaps` agrees with the
lookup in a table that keeps layer 0 and has the default layer once more in
place of the cursor layer, although the two tables differ at layer 1. -/
theorem KEYCODE_layer_isolation_witness :
    keymap_get_keycode KC_sample (fun _ => 0) 0 4 2
      = KEYCODE [KEYMAP KC_sample default_layer, KEYMAP KC_sample default_layer] (fun _ => 1) 0 4 2 ∧
    cell (keymaps KC_sample) 1 4 2
      ≠ cell [KEYMAP KC_sample default_layer, KEYMAP KC_sample default_layer] 1 4 2 :=
  ⟨(KEYCODE_layer_isolation (keymaps KC_sample)
      [KEYMAP KC_sample default_layer, KEYMAP KC_sample default_layer] (fun _ => 0) (fun _ => 1)
      (KEYMAP KC_sample default_layer) 4 2 rfl rfl
      (KEYMAP_shape KC_sample default_layer rfl).1 (KEYMAP_shape KC_sample default_layer rfl).2
      (by decide) (by decide)).1, by decide⟩

/-- C9: every layer stored in `fn_layer` is a layer of `keymaps`: for `i < 8`,
`keymap_fn_layer i < 2`, the number of layers, so for `row < 14` and `col < 8`
the lookup `keymap_get_keycode (keymap_fn_layer i, row, col)` reads inside the
table and returns the cell `keymaps[keymap_fn_layer i][row][col]`. -/
theorem keymap_fn_layer_defined (KC : Keycode → Nat) (past past' : Nat → Nat)
    (i row col : Nat) (hi : i < 8) (hrow : row < 14) (hcol : col < 8) :
    keymap_fn_layer past i < 2 ∧
    (keymaps KC).length = 2 ∧
    (keymap_fn_layer past i * MATRIX_ROWS + row) * MATRIX_COLS + col
      < (keymaps KC).flatten.flatten.length ∧
    cell (keymaps KC) (keymap_fn_layer past i) row col
      = some (keymap_get_keycode KC past' (keymap_fn_layer past i) row col) := by
  have hl : keymap_fn_layer past i < 2 := by
    rw [keymap_fn_layer_eq past i hi]
    split <;> omega
  have hlen : (keymaps KC).flatten.flatten.length = 224 := rfl
  refine ⟨hl, rfl, ?_, cell_keymaps KC past' _ row col hl hrow hcol⟩
  rw [hlen]
  simp only [MATRIX_ROWS, MATRIX_COLS]
  omega

/-- C9, evaluated at slot 0 (layer 1) and the cell (13, 7). -/
theorem keymap_fn_layer_defined_witness :
    (0 < 8 ∧ 13 < 14 ∧ 7 < 8) ∧
    keymap_fn_layer (fun _ => 200) 0 < 2 ∧
    cell (keymaps KC_sample) (keymap_fn_layer (fun _ => 200) 0) 13 7
      = some (keymap_get_keycode KC_sample (fun _ => 200) (keymap_fn_layer (fun _ => 200) 0) 13 7) :=
  ⟨by decide,
   (keymap_fn_layer_defined KC_sample (fun _ => 200) (fun _ => 200) 0 13 7
      (by decide) (by decide) (by decide)).1,
   (keymap_fn_layer_defined KC_sample (fun _ => 200) (fun _ => 200) 0 13 7
      (by decide) (by decide) (by decide)).2.2.2⟩

/-- C10: the cursor layer (WASD, IJKL).  Layer 0 returns W, A, S, D at the cells
(1,5), (0,0), (0,1), (0,2) and I, J, K, L at (4,2), (4,6), (5,0), (4,5); at the
same cells layer 1 returns Up, Left, Down, Right, for both clusters. -/
theorem keymap_cursor_clusters (KC : Keycode → Nat) (past : Nat → Nat) :
    (keymap_get_keycode KC past 0 1 5 = KC KC_W ∧ keymap_get_keycode KC past 1 1 5 = KC KC_UP) ∧
    (keymap_get_keycode KC past 0 0 0 = KC KC_A ∧ keymap_get_keycode KC past 1 0 0 = KC KC_LEFT) ∧
    (keymap_get_keycode KC past 0 0 1 = KC KC_S ∧ keymap_get_keycode KC past 1 0 1 = KC KC_DOWN) ∧
    (keymap_get_keycode KC past 0 0 2 = KC KC_D ∧ keymap_get_keycode KC past 1 0 2 = KC KC_RGHT) ∧
    (keymap_get_keycode KC past 0 4 2 = KC KC_I ∧ keymap_get_keycode KC past 1 4 2 = KC KC_UP) ∧
    (keymap_get_keycode KC past 0 4 6 = KC KC_J ∧ keymap_get_keycode KC past 1 4 6 = KC KC_LEFT) ∧
    (keymap_get_keycode KC past 0 5 0 = KC KC_K ∧ keymap_get_keycode KC past 1 5 0 = KC KC_DOWN) ∧
    (keymap_get_keycode KC past 0 4 5 = KC KC_L ∧ keymap_get_keycode KC past 1 4 5 = KC KC_RGHT) := by
  have c : ∀ (layer row col : Nat) (k : Keycode), row < MATRIX_ROWS → col < MATRIX_COLS →
      cell keymaps_expanded layer row col = some k →
      keymap_get_keycode KC past layer row col = KC k :=
    fun layer row col k => keymap_get_keycode_expanded KC past layer row col k
  exact ⟨⟨c 0 1 5 _ (by decide) (by decide) rfl, c 1 1 5 _ (by decide) (by decide) rfl⟩,
    ⟨c 0 0 0 _ (by decide) (by decide) rfl, c 1 0 0 _ (by decide) (by decide) rfl⟩,
    ⟨c 0 0 1 _ (by decide) (by decide) rfl, c 1 0 1 _ (by decide) (by decide) rfl⟩,
    ⟨c 0 0 2 _ (by decide) (by decide) rfl, c 1 0 2 _ (by decide) (by decide) rfl⟩,
    ⟨c 0 4 2 _ (by decide) (by decide) rfl, c 1 4 2 _ (by decide) (by decide) rfl⟩,
    ⟨c 0 4 6 _ (by decide) (by decide) rfl, c 1 4 6 _ (by decide) (by decide) rfl⟩,
    ⟨c 0 5 0 _ (by decide) (by decide) rfl, c 1 5 0 _ (by decide) (by decide) rfl⟩,
    ⟨c 0 4 5 _ (by decide) (by decide) rfl, c 1 4 5 _ (by decide) (by decide) rfl⟩⟩

/-- C11: the bottom main-block row of the cursor layer, evaluated.  On layer 1
the cells of Opt, Mac, Space, `\`, Left, Right, Down return Alt, Gui, Space, Ins,
Home, End, PgDn as the layout comment draws them, but the cell (6, 4) of the
M0110 Enter key (parameter `K34`), drawn as Gui, returns `KC_LCTL`, the argument
the second `KEYMAP` invocation passes there; it is not `KC_LGUI`. -/
theorem keymap_cursor_bottom_row :
    (∀ (KC : Keycode → Nat) (past : Nat → Nat),
      keymap_get_keycode KC past 1 7 2 = KC KC_LALT ∧
      keymap_get_keycode KC past 1 6 7 = KC KC_LGUI ∧
      keymap_get_keycode KC past 1 6 1 = KC KC_SPC ∧
      keymap_get_keycode KC past 1 6 4 = KC KC_LCTL ∧
      keymap_get_keycode KC past 1 5 2 = KC KC_INS ∧
      keymap_get_keycode KC past 1 8 6 = KC KC_HOME ∧
      keymap_get_keycode KC past 1 8 2 = KC KC_END ∧
      keymap_get_keycode KC past 1 9 0 = KC KC_PGDN) ∧
    keymap_get_keycode KC_sample (fun _ => 0) 1 6 4 ≠ KC_sample KC_LGUI := by
  have c : ∀ (KC : Keycode → Nat) (past : Nat → Nat) (row col : Nat) (k : Keycode),
      row < MATRIX_ROWS → col < MATRIX_COLS → cell keymaps_expanded 1 row col = some k →
      keymap_get_keycode KC past 1 row col = KC k :=
    fun KC past row col k => keymap_get_keycode_expanded KC past 1 row col k
  refine ⟨fun KC past =>
    ⟨c KC past 7 2 _ (by decide) (by decide) rfl, c KC past 6 7 _ (by decide) (by decide) rfl,
     c KC past 6 1 _ (by decide) (by decide) rfl, c KC past 6 4 _ (by decide) (by decide) rfl,
     c KC past 5 2 _ (by decide) (by decide) rfl, c KC past 8 6 _ (by decide) (by decide) rfl,
     c KC past 8 2 _ (by decide) (by decide) rfl, c KC past 9 0 _ (by decide) (by decide) rfl⟩, ?_⟩
  rw [c KC_sample (fun _ => 0) 6 4 KC_LCTL (by decide) (by decide) rfl]
  decide

/-- C12: the Fn key stays reachable on the layer it activates.  Layer 0 holds
`KC_FN0` at the cell (7, 1), and so does the layer `keymap_fn_layer 0`.  For each
layer in {0, 1} and each cell of the grid, the lookup returns the byte of the
constant `k` the expanded table holds there; `k` is an Fn key exactly at the cell
(7, 1); and when `k` is the Fn key of slot `i`, it is `KC_FN0`, `i` is 0, and the
layer `keymap_fn_layer i` returns the same keycode at that cell. -/
theorem keymap_fn0_reachable (KC : Keycode → Nat) (past past' : Nat → Nat)
    (layer row col : Nat) (hl : layer < 2) (hrow : row < 14) (hcol : col < 8) :
    keymap_get_keycode KC past 0 7 1 = KC KC_FN0 ∧
    keymap_get_keycode KC past (keymap_fn_layer past' 0) 7 1 = KC KC_FN0 ∧
    ∃ k, cell keymaps_expanded layer row col = some k ∧
      keymap_get_keycode KC past layer row col = KC k ∧
      (fn_slot k ≠ none ↔ (row = 7 ∧ col = 1)) ∧
      (∀ i, fn_slot k = some i →
        k = KC_FN0 ∧ i = 0 ∧
        keymap_get_keycode KC past (keymap_fn_layer past' i) row col = KC k) := by
  have h0 : keymap_get_keycode KC past 0 7 1 = KC KC_FN0 :=
    keymap_get_keycode_expanded KC past 0 7 1 KC_FN0 (by decide) (by decide) rfl
  have h1 : keymap_get_keycode KC past (keymap_fn_layer past' 0) 7 1 = KC KC_FN0 :=
    keymap_get_keycode_expanded KC past 1 7 1 KC_FN0 (by decide) (by decide) rfl
  obtain ⟨k, hk⟩ := cell_expanded_isSome layer row col hl hrow hcol
  have hs := fn_slot_cell layer row col hl hrow hcol
  rw [hk, Option.some_bind] at hs
  refine ⟨h0, h1, k, hk, keymap_get_keycode_expanded KC past layer row col k hrow hcol hk, ?_, ?_⟩
  · by_cases hc : row = 7 ∧ col = 1
    · simp [hs, hc]
    · simp [hs, hc]
  · intro i hi
    obtain ⟨hkf, hi0⟩ := (fn_slot_eq_some k i).mp hi
    have hc : row = 7 ∧ col = 1 := by
      by_contra hc
      rw [if_neg hc] at hs
      rw [hs] at hi
      exact Option.noConfusion hi
    obtain ⟨rfl, rfl⟩ := hc
    subst hkf hi0
    exact ⟨rfl, rfl, h1⟩

/-- C12, evaluated at the Fn0 cell (7, 1) of layer 0 and at the cell (0, 0). -/
theorem keymap_fn0_reachable_witness :
    (0 < 2 ∧ 7 < 14 ∧ 1 < 8) ∧
    keymap_get_keycode KC_sample (fun _ => 0) 0 7 1 = KC_sample KC_FN0 ∧
    keymap_get_keycode KC_sample (fun _ => 0) (keymap_fn_layer (fun _ => 0) 0) 7 1
      = KC_sample KC_FN0 ∧
    ∃ k, cell keymaps_expanded 0 7 1 = some k ∧
      keymap_get_keycode KC_sample (fun _ => 0) 0 7 1 = KC_sample k ∧
      (fn_slot k ≠ none ↔ (7 = 7 ∧ 1 = 1)) ∧
      (∀ i, fn_slot k = some i →
        k = KC_FN0 ∧ i = 0 ∧
        keymap_get_keycode KC_sample (fun _ => 0) (keymap_fn_layer (fun _ => 0) i) 7 1
          = KC_sample k) :=
  ⟨by decide,
   keymap_fn0_reachable KC_sample (fun _ => 0) (fun _ => 0) 0 7 1 (by decide) (by decide) (by decide)⟩

set_option maxRecDepth 100000 in
/-- C13: on the base layer `KC_NO` marks exactly the unwired cells.  With a
`keycode.h` that gives `KC_NO` a value no other constant has, for `row < 14` and
`col < 8`, `keymap_get_keycode (0, row, col)` is `KC_NO` if and only if no
`KEYMAP` parameter is wired to the cell (the expanded table holds the constant
`KC_NO` there); each of the 78 wired cells returns another keycode, and exactly
34 of the 112 cells return `KC_NO`. -/
theorem keymap_base_NO_iff_unwired (KC : Keycode → Nat) (past : Nat → Nat)
    (hNO : ∀ k, KC k = KC KC_NO → k = KC_NO)
    (row col : Nat) (hrow : row < 14) (hcol : col < 8) :
    (cell keymaps_expanded 0 row col = some KC_NO ↔ row * 8 + col ∉ KEYMAP_params) ∧
    (keymap_get_keycode KC past 0 row col = KC KC_NO ↔ row * 8 + col ∉ KEYMAP_params) ∧
    KEYMAP_params.length = 78 ∧
    (∀ p ∈ KEYMAP_params, keymap_get_keycode KC past 0 (p / 8) (p % 8) ≠ KC KC_NO) ∧
    (List.range (14 * 8)).countP
      (fun n => decide (keymap_get_keycode KC past 0 (n / 8) (n % 8) = KC KC_NO)) = 34 := by
  have byte : ∀ row col, row < 14 → col < 8 →
      (keymap_get_keycode KC past 0 row col = KC KC_NO ↔ row * 8 + col ∉ KEYMAP_params) := by
    intro row col hrow hcol
    obtain ⟨k, hk⟩ := cell_expanded_isSome 0 row col (by decide) hrow hcol
    rw [keymap_get_keycode_expanded KC past 0 row col k hrow hcol hk,
      ← default_layer_NO_iff row col hrow hcol, hk]
    constructor
    · intro h; rw [hNO k h]
    · intro h; rw [Option.some.inj h]
  refine ⟨default_layer_NO_iff row col hrow hcol, byte row col hrow hcol, rfl, ?_, ?_⟩
  · intro p hp hno
    have hb : ∀ p ∈ KEYMAP_params, p / 8 < 14 := by decide
    have hlt : p / 8 < 14 := hb p hp
    have hu := (byte (p / 8) (p % 8) hlt (Nat.mod_lt _ (by decide))).mp hno
    have hp' : p / 8 * 8 + p % 8 = p := by omega
    rw [hp'] at hu
    exact hu hp
  · have hcount : (List.range (14 * 8)).countP (fun n => decide (n ∉ KEYMAP_params)) = 34 := by
      decide
    rw [← hcount]
    apply List.countP_congr
    intro n hn
    have hn' : n < 14 * 8 := List.mem_range.mp hn
    have hb := byte (n / 8) (n % 8) (by omega) (Nat.mod_lt _ (by decide))
    have hn8 : n / 8 * 8 + n % 8 = n := by omega
    rw [hn8] at hb
    simp only [decide_eq_true_eq]
    exact hb

/-- C13, evaluated with the sample numbering at the unwired cell (1, 2) and the
wired cell (0, 0). -/
theorem keymap_base_NO_iff_unwired_witness :
    ((1 < 14 ∧ 2 < 8) ∧
      (keymap_get_keycode KC_sample (fun _ => 0) 0 1 2 = KC_sample KC_NO
        ↔ 1 * 8 + 2 ∉ KEYMAP_params)) ∧
    ((0 < 14 ∧ 0 < 8) ∧
      (keymap_get_keycode KC_sample (fun _ => 0) 0 0 0 = KC_sample KC_NO
        ↔ 0 * 8 + 0 ∉ KEYMAP_params)) ∧
    (List.range (14 * 8)).countP
      (fun n => decide (keymap_get_keycode KC_sample (fun _ => 0) 0 (n / 8) (n % 8)
        = KC_sample KC_NO)) = 34 :=
  ⟨⟨by decide, (keymap_base_NO_iff_unwired KC_sample (fun _ => 0) KC_sample_NO 1 2
      (by decide) (by decide)).2.1⟩,
   ⟨by decide, (keymap_base_NO_iff_unwired KC_sample (fun _ => 0) KC_sample_NO 0 0
      (by decide) (by decide)).2.1⟩,
   (keymap_base_NO_iff_unwired KC_sample (fun _ => 0) KC_sample_NO 0 0
      (by decide) (by decide)).2.2.2.2⟩

end Keymap
